import Mathlib

/-!
Shallow embedding of the `ugf` pattern-management tool (src/ugf.go).

The embedding covers the core logic the specification describes:
record decoding with the dual-form `flags` field (`pattern.UnmarshalJSON`),
pattern resolution and engine selection, real-run argument building and
dry-run rendering (the body of `main` after CLI dispatch), and the
`savePattern` operation over an explicit filesystem state.
-/

/-- Whitespace predicate used by Go `strings.Fields` (ASCII part of
`unicode.IsSpace`; the repository only ever splits ASCII flag strings). -/
def goSpace (c : Char) : Bool :=
  c = ' ' || c = '\t' || c = '\n' || c = '\x0b' || c = '\x0c' || c = '\r'

/-- Accumulator-based splitter: `fieldsAux acc cs` splits `cs` around runs of
whitespace, `acc` holding the reversed characters of the current token. -/
def fieldsAux : List Char → List Char → List String
  | acc, [] => if acc = [] then [] else [String.mk acc.reverse]
  | acc, c :: cs =>
    if goSpace c then
      (if acc = [] then [] else [String.mk acc.reverse]) ++ fieldsAux [] cs
    else
      fieldsAux (c :: acc) cs

/-- Model of Go `strings.Fields`: split around runs of whitespace, no empty
tokens. -/
def goFields (s : String) : List String :=
  fieldsAux [] s.data

/-- Model of Go `strings.Join`: elements joined with the separator between
consecutive elements. -/
def goJoin (sep : String) : List String → String
  | [] => ""
  | [t] => t
  | t :: ts => t ++ sep ++ goJoin sep ts

/-- JSON values: the parsed form of a stored record file, the input to the
decoding logic of `pattern.UnmarshalJSON`. -/
inductive Json where
  | null
  | bool (b : Bool)
  | num (n : Int)
  | str (s : String)
  | arr (elems : List Json)
  | obj (fields : List (String × Json))

/-- Field lookup in a JSON object. -/
def Json.getField : List (String × Json) → String → Option Json
  | [], _ => none
  | (k, v) :: rest, name => if k = name then some v else Json.getField rest name

/-- The `pattern` struct of src/ugf.go: flags, single pattern, pattern list,
engine name. -/
structure Pattern where
  flags : List String
  pattern : String
  patterns : List String
  engine : String
deriving DecidableEq

/-- Decode failure: Go `json.Decoder.Decode` returned an error, reported by
`main` as a malformed pattern file. -/
inductive DecodeErr where
  | malformedRecord
deriving DecidableEq

/-- Keep only the string elements of a JSON array, in order (the
`[]interface\x7b\x7d` branch of `pattern.UnmarshalJSON`). -/
def keepStrings (xs : List Json) : List String :=
  xs.filterMap (fun j => match j with | .str s => some s | _ => none)

/-- The `switch` on the untyped `flags` value in `pattern.UnmarshalJSON`:
a string is split into fields (only when non-empty), an array keeps its
string elements, and every other shape (absent, null, number, bool, object)
falls through leaving the flags empty. -/
def decodeFlagsVal : Option Json → List String
  | some (.str s) => if s = "" then [] else goFields s
  | some (.arr xs) => keepStrings xs
  | _ => []

/-- Decoding of a plain string field by `encoding/json`: absent or null gives
the zero value, a string gives itself, any other shape is an unmarshalling
error. -/
def decodeStrField (fields : List (String × Json)) (name : String) :
    Except DecodeErr String :=
  match Json.getField fields name with
  | none => .ok ""
  | some .null => .ok ""
  | some (.str s) => .ok s
  | some _ => .error .malformedRecord

/-- Decoding of one element of a `[]string` field by `encoding/json`: null is
a no-op (zero value), a string gives itself, anything else errors. -/
def decodeStrElem : Json → Except DecodeErr String
  | .null => .ok ""
  | .str s => .ok s
  | _ => .error .malformedRecord

/-- Decoding of a `[]string` field by `encoding/json`: absent or null gives
nil, an array decodes elementwise, any other shape errors. -/
def decodeStrListField (fields : List (String × Json)) (name : String) :
    Except DecodeErr (List String) :=
  match Json.getField fields name with
  | none => .ok []
  | some .null => .ok []
  | some (.arr xs) => xs.mapM decodeStrElem
  | some _ => .error .malformedRecord

/-- Model of `pattern.UnmarshalJSON`: the top level must be an object (or
null, which leaves the zero record); `pattern`, `patterns` and `engine`
decode as typed fields through the `Alias`, while `flags` is captured as an
untyped value and normalised by `decodeFlagsVal`. -/
def decodePattern : Json → Except DecodeErr Pattern
  | .null => .ok ⟨[], "", [], ""⟩
  | .obj fs => do
      let pat ← decodeStrField fs "pattern"
      let pats ← decodeStrListField fs "patterns"
      let eng ← decodeStrField fs "engine"
      pure ⟨decodeFlagsVal (Json.getField fs "flags"), pat, pats, eng⟩
  | _ => .error .malformedRecord

/-- Resolution failure: the record has neither `pattern` nor `patterns`
(reported by `main` as "contains no pattern(s)"). -/
inductive RunErr where
  | emptyPattern
deriving DecidableEq

/-- Pattern resolution (src/ugf.go lines 113-120): when `pattern` is empty,
a non-empty `patterns` list is joined into the alternation
`(p1|p2|...)`; when both are empty the run fails. -/
def resolve (p : Pattern) : Except RunErr Pattern :=
  if p.pattern = "" then
    if p.patterns.length = 0 then .error .emptyPattern
    else .ok { p with pattern := "(" ++ goJoin "|" p.patterns ++ ")" }
  else .ok p

/-- Engine selection (src/ugf.go lines 122-125): the record's engine when
non-empty, else the default engine `ugrep`. -/
def selectEngine (p : Pattern) : String :=
  if p.engine = "" then "ugrep" else p.engine

/-- The repeated `-e p` arguments built for the multi-pattern path. -/
def multiExpr (patterns : List String) : List String :=
  patterns.flatMap (fun p => ["-e", p])

/-- Real-run argument vector (src/ugf.go lines 144-159): the multi-pattern
path for the default engine with a non-empty `patterns` list, else the
single-pattern path; the target is appended only when stdin is not a pipe
and the target is non-empty. -/
def realArgs (operator : String) (pat : Pattern) (files : String)
    (stdinPiped : Bool) : List String :=
  if operator = "ugrep" ∧ pat.patterns.length > 0 then
    pat.flags ++ multiExpr pat.patterns ++
      (if ¬stdinPiped ∧ files ≠ "" then [files] else [])
  else
    pat.flags ++ [pat.pattern] ++
      (if ¬stdinPiped ∧ files ≠ "" then [files] else [])

/-- Lower-case hexadecimal digit. -/
def hexDigit (n : Nat) : Char :=
  if n < 10 then Char.ofNat (48 + n) else Char.ofNat (87 + n)

/-- Quoting of one character by Go `strconv.Quote` (the `%q` verb), exact for
ASCII; non-ASCII runes are kept as-is (the printable case). -/
def goQuoteChar (c : Char) : String :=
  if c = '"' then "\\\""
  else if c = '\\' then "\\\\"
  else if c = '\x07' then "\\a"
  else if c = '\x08' then "\\b"
  else if c = '\x0c' then "\\f"
  else if c = '\n' then "\\n"
  else if c = '\r' then "\\r"
  else if c = '\t' then "\\t"
  else if c = '\x0b' then "\\v"
  else if 0x20 ≤ c.toNat ∧ c.toNat < 0x7f then String.singleton c
  else if c.toNat < 0x80 then
    "\\x" ++ String.mk [hexDigit (c.toNat / 16), hexDigit (c.toNat % 16)]
  else String.singleton c

/-- Model of Go `strconv.Quote` as used by the `%q` verb of the dry-run
rendering. -/
def goQuote (s : String) : String :=
  "\"" ++ String.join (s.data.map goQuoteChar) ++ "\""

/-- Dry-run output line (src/ugf.go lines 127-141): the multi-pattern path
joins the engine and arguments with spaces and never consults the
stdin-is-piped state; the single-pattern path renders engine, joined flags,
the `%q`-quoted pattern and the raw target. -/
def dumpLine (operator : String) (pat : Pattern) (files : String) : String :=
  if operator = "ugrep" ∧ pat.patterns.length > 0 then
    let args := pat.flags ++ multiExpr pat.patterns ++
      (if files ≠ "" then [files] else [])
    operator ++ " " ++ goJoin " " args ++ "\n"
  else
    operator ++ " " ++ goJoin " " pat.flags ++ " " ++
      goQuote pat.pattern ++ " " ++ files ++ "\n"

/-- Outcome of one run: abort with an error, print a dry-run line, or invoke
the engine with an argument vector. -/
inductive Outcome where
  | fail (e : RunErr)
  | dumped (line : String)
  | exec (prog : String) (args : List String)
deriving DecidableEq

/-- The run path of `main` (src/ugf.go lines 85-165) after the record has
been loaded and decoded: default the target to `.`, resolve the pattern,
select the engine, then either render the dry-run line or build the real
argument vector. -/
def mainRun (r : Pattern) (filesArg : String) (stdinPiped dumpMode : Bool) :
    Outcome :=
  let files := if filesArg = "" then "." else filesArg
  match resolve r with
  | .error e => .fail e
  | .ok pat =>
    let operator := selectEngine pat
    if dumpMode then .dumped (dumpLine operator pat files)
    else .exec operator (realArgs operator pat files stdinPiped)

/-- Save failure kinds of `savePattern` (src/ugf.go lines 181-203). -/
inductive SaveErr where
  | nameEmpty
  | patternEmpty
  | dirFailure
  | nameCollision
deriving DecidableEq

/-- The pattern store as an explicit state: file path to file contents. -/
abbrev Fs := List (String × String)

/-- Lookup of a file in the store state. -/
def Fs.lookup : Fs → String → Option String
  | [], _ => none
  | (k, v) :: rest, path => if k = path then some v else Fs.lookup rest path

/-- Escaping of one character by `encoding/json` string encoding (HTML
escaping on, as for a default `json.Encoder`). -/
def jsonEscapeChar (c : Char) : String :=
  if c = '"' then "\\\""
  else if c = '\\' then "\\\\"
  else if c = '\n' then "\\n"
  else if c = '\r' then "\\r"
  else if c = '\t' then "\\t"
  else if c.toNat < 0x20 then
    "\\u00" ++ String.mk [hexDigit (c.toNat / 16), hexDigit (c.toNat % 16)]
  else if c = '<' then "\\u003c"
  else if c = '>' then "\\u003e"
  else if c = '&' then "\\u0026"
  else String.singleton c

/-- JSON string literal encoding. -/
def jsonEncodeString (s : String) : String :=
  "\"" ++ String.join (s.data.map jsonEscapeChar) ++ "\""

/-- One indented field line of the pretty-printed record. -/
def encodeField (name val : String) : String :=
  "    " ++ jsonEncodeString name ++ ": " ++ val

/-- Pretty-printed string list with 4-space indentation. -/
def encodeStrList (xs : List String) : String :=
  if xs = [] then "[]"
  else "[\n" ++
    goJoin ",\n" (xs.map (fun x => "        " ++ jsonEncodeString x)) ++
    "\n    ]"

/-- Model of `json.Encoder.Encode` with 4-space indentation on the `pattern`
struct: every field carries `omitempty`, so empty fields are dropped. -/
def encodePattern (p : Pattern) : String :=
  let parts :=
    (if p.flags = [] then [] else [encodeField "flags" (encodeStrList p.flags)]) ++
    (if p.pattern = "" then [] else [encodeField "pattern" (jsonEncodeString p.pattern)]) ++
    (if p.patterns = [] then [] else [encodeField "patterns" (encodeStrList p.patterns)]) ++
    (if p.engine = "" then [] else [encodeField "engine" (jsonEncodeString p.engine)])
  if parts = [] then "\x7b\x7d\n"
  else "\x7b\n" ++ goJoin ",\n" parts ++ "\n\x7d\n"

/-- Model of `savePattern` (src/ugf.go lines 181-214) over an explicit store
state: reject an empty name, then an empty pattern, then a failed directory
resolution; create the file exclusively (`O_EXCL`), so an existing file is a
collision and the state is returned unchanged. -/
def savePattern (fs : Fs) (dirRes : Option String)
    (name flagsStr pat : String) : Option SaveErr × Fs :=
  if name = "" then (some .nameEmpty, fs)
  else if pat = "" then (some .patternEmpty, fs)
  else
    match dirRes with
    | none => (some .dirFailure, fs)
    | some dir =>
      let path := dir ++ "/" ++ name ++ ".json"
      match Fs.lookup fs path with
      | some _ => (some .nameCollision, fs)
      | none => (none, (path, encodePattern ⟨goFields flagsStr, pat, [], ""⟩) :: fs)

/-- A successful resolution never changes the flags, patterns or engine
fields of the record. -/
theorem resolve_fields (r p : Pattern) (h : resolve r = .ok p) :
    p.flags = r.flags ∧ p.patterns = r.patterns ∧ p.engine = r.engine := by
  unfold resolve at h
  split at h
  · split at h
    · exact absurd h (by simp)
    · simp only [Except.ok.injEq] at h
      subst h
      simp
  · simp only [Except.ok.injEq] at h
    subst h
    simp

/-- Unfolding of `mainRun` when resolution succeeds. -/
theorem mainRun_ok (r p : Pattern) (filesArg : String) (piped dump : Bool)
    (h : resolve r = .ok p) :
    mainRun r filesArg piped dump =
      if dump then
        .dumped (dumpLine (selectEngine p) p (if filesArg = "" then "." else filesArg))
      else
        .exec (selectEngine p)
          (realArgs (selectEngine p) p (if filesArg = "" then "." else filesArg) piped) := by
  simp [mainRun, h]

/-- Resolution is the identity on records with a non-empty pattern field. -/
theorem resolve_of_pattern_ne (r : Pattern) (hp : r.pattern ≠ "") :
    resolve r = .ok r := by
  simp [resolve, hp]

/-- Engine selection ignores the pattern field. -/
theorem selectEngine_set_pattern (r : Pattern) (s : String) :
    selectEngine { r with pattern := s } = selectEngine r := rfl

/-- Claim C2: for every record with empty `pattern` and non-empty `patterns`,
resolution produces the effective pattern `"(" ++ join(patterns, "|") ++ ")"`
byte-for-byte (all other fields unchanged), and engine selection picks the
`engine` field when it is non-empty, else the default engine name `ugrep`. -/
theorem C2_multi_resolution (r : Pattern) (hp : r.pattern = "")
    (hps : r.patterns ≠ []) :
    resolve r = .ok { r with pattern := "(" ++ goJoin "|" r.patterns ++ ")" } ∧
    selectEngine r = (if r.engine ≠ "" then r.engine else "ugrep") := by
  constructor
  · simp [resolve, hp, hps]
  · by_cases he : r.engine = "" <;> simp [selectEngine, he]

/-- Witness for C2 at a concrete record. -/
theorem C2_multi_resolution_witness :
    resolve ⟨[], "", ["foo", "bar"], "rg"⟩ =
      .ok ⟨[], "(foo|bar)", ["foo", "bar"], "rg"⟩ ∧
    selectEngine ⟨[], "", ["foo", "bar"], "rg"⟩ = "rg" := by
  simpa using C2_multi_resolution ⟨[], "", ["foo", "bar"], "rg"⟩ rfl (by decide)

/-- Claim C3: for every record with non-empty `patterns` and the default
engine selected, the real-run argument vector is the flags, then the pair
`-e p` for each `p` in `patterns` in order, then the (defaulted) target
appended only when it is non-empty and stdin is not a pipe. -/
theorem C3_multi_args (r : Pattern) (filesArg : String) (stdinPiped : Bool)
    (hps : r.patterns ≠ []) (heng : selectEngine r = "ugrep") :
    mainRun r filesArg stdinPiped false =
      .exec "ugrep"
        (r.flags ++ multiExpr r.patterns ++
          (if ¬stdinPiped ∧ (if filesArg = "" then "." else filesArg) ≠ ""
           then [if filesArg = "" then "." else filesArg] else [])) := by
  by_cases hp : r.pattern = ""
  · have hres : resolve r = .ok { r with pattern := "(" ++ goJoin "|" r.patterns ++ ")" } := by
      simp [resolve, hp, hps]
    rw [mainRun_ok r _ filesArg stdinPiped false hres]
    simp only [Bool.false_eq_true, if_false, selectEngine_set_pattern, heng]
    simp [realArgs, List.length_pos, hps]
  · have hres : resolve r = .ok r := resolve_of_pattern_ne r hp
    rw [mainRun_ok r r filesArg stdinPiped false hres]
    simp only [Bool.false_eq_true, if_false, heng]
    simp [realArgs, List.length_pos, hps]

/-- Witness for C3 at the spec scenario: patterns `["foo","bar"]`, default
engine, empty caller target defaulting to `.`, stdin not piped. -/
theorem C3_multi_args_witness :
    mainRun ⟨[], "", ["foo", "bar"], ""⟩ "" false false =
      .exec "ugrep" ["-e", "foo", "-e", "bar", "."] := by
  simpa using C3_multi_args ⟨[], "", ["foo", "bar"], ""⟩ "" false (by decide) rfl

/-- Claim C4: a record with both `pattern` and `patterns` empty fails with
the empty-pattern error; no dry-run line is printed and no engine is
invoked. -/
theorem C4_empty_pattern (r : Pattern) (filesArg : String)
    (stdinPiped dumpMode : Bool) (hp : r.pattern = "") (hps : r.patterns = []) :
    mainRun r filesArg stdinPiped dumpMode = .fail .emptyPattern := by
  simp [mainRun, resolve, hp, hps]

/-- Witness for C4 at a concrete record. -/
theorem C4_empty_pattern_witness :
    mainRun ⟨["-i"], "", [], "rg"⟩ "." true true = .fail .emptyPattern :=
  C4_empty_pattern ⟨["-i"], "", [], "rg"⟩ "." true true rfl rfl

/-- Claim C9: saving under a name whose record file already exists fails
with the name-collision error and leaves the store state, in particular the
existing file's contents, unchanged. -/
theorem C9_name_collision (fs : Fs) (dir name flagsStr pat old : String)
    (hn : name ≠ "") (hp : pat ≠ "")
    (hex : Fs.lookup fs (dir ++ "/" ++ name ++ ".json") = some old) :
    savePattern fs (some dir) name flagsStr pat = (some .nameCollision, fs) ∧
    Fs.lookup (savePattern fs (some dir) name flagsStr pat).2
      (dir ++ "/" ++ name ++ ".json") = some old := by
  constructor
  · simp [savePattern, hn, hp, hex]
  · simp [savePattern, hn, hp, hex]

/-- Witness for C9 at a concrete store. -/
theorem C9_name_collision_witness :
    savePattern [("d/x.json", "old")] (some "d") "x" "-i" "p" =
      (some .nameCollision, [("d/x.json", "old")]) ∧
    Fs.lookup (savePattern [("d/x.json", "old")] (some "d") "x" "-i" "p").2
      "d/x.json" = some "old" := by
  simpa using C9_name_collision [("d/x.json", "old")] "d" "x" "-i" "p" "old"
    (by decide) (by decide) rfl

/-- Claim C10: the save operation rejects an empty name and, for a non-empty
name, an empty pattern string, in both cases before the store directory
result is consulted (any directory outcome, including failure, gives the
same result) and without touching the store state. -/
theorem C10_save_preconditions (fs : Fs) (dirRes : Option String)
    (name flagsStr pat : String) :
    savePattern fs dirRes "" flagsStr pat = (some .nameEmpty, fs) ∧
    (name ≠ "" → savePattern fs dirRes name flagsStr "" = (some .patternEmpty, fs)) := by
  constructor
  · simp [savePattern]
  · intro hn
    simp [savePattern, hn]

/-- Witness for C10 at a concrete store, with directory resolution failed. -/
theorem C10_save_preconditions_witness :
    savePattern [("a", "b")] none "" "-i" "q" = (some .nameEmpty, [("a", "b")]) ∧
    savePattern [("a", "b")] none "x" "-i" "" = (some .patternEmpty, [("a", "b")]) :=
  ⟨(C10_save_preconditions [("a", "b")] none "x" "-i" "q").1,
   (C10_save_preconditions [("a", "b")] none "x" "-i" "q").2 (by decide)⟩

/-- Claim C1 as stated is false: a record whose `pattern` is non-empty but
whose `patterns` is also non-empty, with the default engine, takes the
multi-pattern path; the real argument vector is the `-e` pairs, not the
flags followed by the `pattern` string. -/
theorem C1_counterexample :
    mainRun ⟨[], "foo", ["bar"], ""⟩ "." false false =
      .exec "ugrep" ["-e", "bar", "."] ∧
    mainRun ⟨[], "foo", ["bar"], ""⟩ "." false false ≠
      .exec "ugrep" (([] : List String) ++ ["foo"] ++ ["."]) := by
  refine ⟨rfl, by decide⟩

/-- Claim C1 (amended): for every record whose `pattern` is non-empty and
which does not take the multi-pattern default-engine path (its `patterns` is
empty or the selected engine is not the default), resolution leaves the
record unchanged and the real-run argument vector is the flags in order,
then the `pattern` string, then the (defaulted) target appended only when it
is non-empty and stdin is not a pipe. -/
theorem C1_single_path (r : Pattern) (filesArg : String) (stdinPiped : Bool)
    (hp : r.pattern ≠ "")
    (hside : r.patterns = [] ∨ selectEngine r ≠ "ugrep") :
    resolve r = .ok r ∧
    mainRun r filesArg stdinPiped false =
      .exec (selectEngine r)
        (r.flags ++ [r.pattern] ++
          (if ¬stdinPiped ∧ (if filesArg = "" then "." else filesArg) ≠ ""
           then [if filesArg = "" then "." else filesArg] else [])) := by
  have hres := resolve_of_pattern_ne r hp
  refine ⟨hres, ?_⟩
  rw [mainRun_ok r r filesArg stdinPiped false hres]
  have hcond : ¬(selectEngine r = "ugrep" ∧ r.patterns.length > 0) := by
    rcases hside with h | h
    · simp [h]
    · simp [h]
  simp [realArgs, hcond]

/-- Witness for C1 (amended) at the spec scenario: flags `["-Hnr"]`, pattern
`TODO`, target `.`, stdin not piped. -/
theorem C1_single_path_witness :
    resolve ⟨["-Hnr"], "TODO", [], ""⟩ = .ok ⟨["-Hnr"], "TODO", [], ""⟩ ∧
    mainRun ⟨["-Hnr"], "TODO", [], ""⟩ "." false false =
      .exec "ugrep" ["-Hnr", "TODO", "."] := by
  have h := C1_single_path ⟨["-Hnr"], "TODO", [], ""⟩ "." false (by decide) (.inl rfl)
  exact ⟨h.1, h.2.trans (by decide)⟩

/-- Claim C5 as stated is false: a `flags` field holding a number decodes
without error; the untyped capture accepts any JSON value and the switch
silently ignores shapes other than string and array. -/
theorem C5_counterexample :
    decodePattern (.obj [("flags", .num 42)]) = .ok ⟨[], "", [], ""⟩ := rfl

/-- Claim C5 (amended): for every `flags` value of a shape other than
absent/null/string/list (number, boolean or object), decoding succeeds and
yields an empty flags sequence; no malformed-record error is raised on
account of the `flags` field. -/
theorem C5_flags_ignored (v : Json)
    (h : (∃ n, v = .num n) ∨ (∃ b, v = .bool b) ∨ (∃ fs, v = .obj fs)) :
    decodePattern (.obj [("flags", v)]) = .ok ⟨[], "", [], ""⟩ := by
  rcases h with ⟨n, rfl⟩ | ⟨b, rfl⟩ | ⟨fs, rfl⟩ <;> rfl

/-- Witness for C5 (amended) at an object-valued `flags` field. -/
theorem C5_flags_ignored_witness :
    decodePattern (.obj [("flags", .obj [("max", .num 3)])]) = .ok ⟨[], "", [], ""⟩ :=
  C5_flags_ignored (.obj [("max", .num 3)]) (.inr (.inr ⟨_, rfl⟩))

/-- Claim C6 as stated is false: on the multi-pattern default-engine path
with stdin piped, the dry-run line still contains the target while the real
argument vector omits it, so the printed line is not the engine name
followed by the real vector space-joined. -/
theorem C6_counterexample :
    mainRun ⟨[], "", ["foo"], ""⟩ "." true true = .dumped "ugrep -e foo .\n" ∧
    mainRun ⟨[], "", ["foo"], ""⟩ "." true false = .exec "ugrep" ["-e", "foo"] ∧
    ("ugrep -e foo .\n" : String) ≠ "ugrep" ++ " " ++ goJoin " " ["-e", "foo"] ++ "\n" := by
  refine ⟨rfl, rfl, by decide⟩

/-- Claim C6 (amended): in dry-run mode on the multi-pattern default-engine
path the printed line is the engine name followed, space-joined, by the
argument vector the real invocation would use when stdin is not piped (the
non-empty target always included); it matches the real vector only in that
case, the piped state being ignored by the dry-run rendering. -/
theorem C6_dump_multi (r p : Pattern) (filesArg : String) (stdinPiped : Bool)
    (hres : resolve r = .ok p) (hps : p.patterns ≠ [])
    (heng : selectEngine p = "ugrep") :
    mainRun r filesArg stdinPiped true =
      .dumped ("ugrep" ++ " " ++
        goJoin " " (realArgs "ugrep" p (if filesArg = "" then "." else filesArg) false) ++
        "\n") := by
  rw [mainRun_ok r p filesArg stdinPiped true hres]
  have hcond : selectEngine p = "ugrep" ∧ p.patterns.length > 0 :=
    ⟨heng, by simp [List.length_pos, hps]⟩
  simp [dumpLine, realArgs, heng, hcond.2]

/-- Witness for C6 (amended) at a concrete multi-pattern record with stdin
piped. -/
theorem C6_dump_multi_witness :
    mainRun ⟨["-n"], "", ["foo", "bar"], ""⟩ "" true true =
      .dumped "ugrep -n -e foo -e bar .\n" := by
  have h := C6_dump_multi ⟨["-n"], "", ["foo", "bar"], ""⟩
    ⟨["-n"], "(foo|bar)", ["foo", "bar"], ""⟩ "" true rfl (by decide) rfl
  exact h.trans (by decide)

/-- Claim C7: in dry-run mode on the single-pattern (or non-default-engine)
path, the rendered line contains the raw target token regardless of the
stdin-is-piped state, with the pattern quoted and the target unquoted, even
though the real argument vector omits the target when stdin is piped. -/
theorem C7_dump_single (r p : Pattern) (filesArg : String)
    (hres : resolve r = .ok p)
    (hside : ¬(selectEngine p = "ugrep" ∧ p.patterns ≠ [])) :
    (∀ b : Bool, mainRun r filesArg b true =
      .dumped (selectEngine p ++ " " ++ goJoin " " p.flags ++ " " ++
        goQuote p.pattern ++ " " ++ (if filesArg = "" then "." else filesArg) ++ "\n")) ∧
    mainRun r filesArg true false = .exec (selectEngine p) (p.flags ++ [p.pattern]) := by
  have hcond : ¬(selectEngine p = "ugrep" ∧ p.patterns.length > 0) := by
    simpa [List.length_pos] using hside
  constructor
  · intro b
    rw [mainRun_ok r p filesArg b true hres]
    simp [dumpLine, hcond]
  · rw [mainRun_ok r p filesArg true false hres]
    simp [realArgs, hcond]

/-- Witness for C7 at a concrete non-default-engine record with stdin piped
and not piped. -/
theorem C7_dump_single_witness :
    mainRun ⟨["-i"], "foo", [], "rg"⟩ "./src" true true =
      .dumped "rg -i \"foo\" ./src\n" ∧
    mainRun ⟨["-i"], "foo", [], "rg"⟩ "./src" false true =
      .dumped "rg -i \"foo\" ./src\n" ∧
    mainRun ⟨["-i"], "foo", [], "rg"⟩ "./src" true false =
      .exec "rg" ["-i", "foo"] := by
  have h := C7_dump_single ⟨["-i"], "foo", [], "rg"⟩ ⟨["-i"], "foo", [], "rg"⟩
    "./src" rfl (by decide)
  exact ⟨(h.1 true).trans (by decide), (h.1 false).trans (by decide), h.2.trans (by decide)⟩

/-- Structure eta for strings: rebuilding a string from its character list
gives the same string. -/
theorem stringMk_data (t : String) : String.mk t.data = t := rfl

/-- Appending strings appends their character lists. -/
theorem stringData_append (a b : String) : (a ++ b).data = a.data ++ b.data := rfl

/-- A string is empty exactly when its character list is. -/
theorem string_eq_empty_iff (t : String) : t = "" ↔ t.data = [] := by
  constructor
  · intro h
    rw [h]
  · intro h
    rw [← stringMk_data t, h]

/-- Splitting walks through a whitespace-free chunk, accumulating it. -/
theorem fieldsAux_no_space (w : List Char) (h : ∀ c ∈ w, goSpace c = false) :
    ∀ acc rest, fieldsAux acc (w ++ rest) = fieldsAux (w.reverse ++ acc) rest := by
  induction w with
  | nil =>
    intro acc rest
    simp
  | cons c w ih =>
    intro acc rest
    have hc : goSpace c = false := h c (List.mem_cons_self c w)
    have hw : ∀ x ∈ w, goSpace x = false := fun x hx => h x (List.mem_cons_of_mem c hx)
    simp only [List.cons_append, fieldsAux, hc, Bool.false_eq_true, if_false]
    rw [show w.append rest = w ++ rest from rfl, ih hw (c :: acc) rest]
    simp

/-- Splitting a whitespace-free non-empty token followed by a space emits the
token and continues. -/
theorem fieldsAux_token (t : String) (rest : List Char) (ht : t ≠ "")
    (hs : ∀ c ∈ t.data, goSpace c = false) :
    fieldsAux [] (t.data ++ ' ' :: rest) = t :: fieldsAux [] rest := by
  rw [fieldsAux_no_space t.data hs [] (' ' :: rest)]
  have hne : t.data.reverse ++ [] ≠ [] := by
    simp
    intro hh
    exact ht ((string_eq_empty_iff t).2 hh)
  simp only [fieldsAux, show goSpace ' ' = true from rfl, if_true, hne, if_false]
  simp [stringMk_data]

/-- Splitting a single whitespace-free non-empty token yields that token. -/
theorem goFields_single (t : String) (ht : t ≠ "")
    (hs : ∀ c ∈ t.data, goSpace c = false) :
    goFields t = [t] := by
  unfold goFields
  rw [show t.data = t.data ++ [] by simp, fieldsAux_no_space t.data hs [] []]
  have hne : t.data.reverse ++ [] ≠ [] := by
    simp
    intro hh
    exact ht ((string_eq_empty_iff t).2 hh)
  simp only [fieldsAux, hne, if_false]
  simp [stringMk_data]

/-- Splitting the space-joined form of non-empty whitespace-free tokens
recovers exactly the token list. -/
theorem goFields_goJoin (ts : List String)
    (h : ∀ t ∈ ts, t ≠ "" ∧ ∀ c ∈ t.data, goSpace c = false) :
    goFields (goJoin " " ts) = ts := by
  induction ts with
  | nil => rfl
  | cons t ts ih =>
    cases ts with
    | nil => exact goFields_single t (h t (by simp)).1 (h t (by simp)).2
    | cons t2 ts2 =>
      have hht := h t (by simp)
      have hrec : goFields (goJoin " " (t2 :: ts2)) = t2 :: ts2 :=
        ih (fun x hx => h x (by simp [hx]))
      show fieldsAux [] (goJoin " " (t :: t2 :: ts2)).data = t :: t2 :: ts2
      have hstep : (goJoin " " (t :: t2 :: ts2)).data =
          t.data ++ ' ' :: (goJoin " " (t2 :: ts2)).data := by
        show ((t ++ " ") ++ goJoin " " (t2 :: ts2)).data = _
        rw [stringData_append, stringData_append]
        simp
      rw [hstep, fieldsAux_token t _ hht.1 hht.2]
      exact congrArg (t :: ·) hrec

/-- Mapping the string constructor and keeping the strings is the identity. -/
theorem keepStrings_map_str (ts : List String) :
    keepStrings (ts.map .str) = ts := by
  induction ts with
  | nil => rfl
  | cons t ts ih => simpa [keepStrings, List.filterMap_cons] using ih

/-- A non-empty token list with non-empty tokens has a non-empty join. -/
theorem goJoin_ne_empty (t : String) (ts : List String) (ht : t ≠ "") :
    goJoin " " (t :: ts) ≠ "" := by
  cases ts with
  | nil => exact ht
  | cons t2 ts2 =>
    intro hj
    have : ((t ++ " ") ++ goJoin " " (t2 :: ts2)).data = [] :=
      (string_eq_empty_iff _).1 hj
    rw [stringData_append, stringData_append] at this
    rcases List.append_eq_nil.1 this with ⟨h1, _⟩
    rcases List.append_eq_nil.1 h1 with ⟨_, h3⟩
    simp at h3

/-- Claim C8: decoding the `flags` field given as the whitespace-joined
string form of non-empty whitespace-free tokens and given as the
list-of-strings form of the same tokens yields identical ordered flag
sequences; in particular the string `-H -n -r -i` and the list
`["-H","-n","-r","-i"]` decode to the same record, and non-string list
elements are dropped in order without a decode error. -/
theorem C8_flags_dual_decode (ts : List String)
    (h : ∀ t ∈ ts, t ≠ "" ∧ ∀ c ∈ t.data, goSpace c = false) :
    decodeFlagsVal (some (.str (goJoin " " ts))) =
      decodeFlagsVal (some (.arr (ts.map .str))) ∧
    decodePattern (.obj [("flags", .str "-H -n -r -i")]) =
      decodePattern (.obj [("flags", .arr [.str "-H", .str "-n", .str "-r", .str "-i"])]) ∧
    decodePattern (.obj [("flags", .arr [.str "-H", .num 7, .bool true, .str "-n"])]) =
      .ok ⟨["-H", "-n"], "", [], ""⟩ := by
  refine ⟨?_, rfl, rfl⟩
  rw [show decodeFlagsVal (some (.arr (ts.map .str))) = keepStrings (ts.map .str) from rfl,
    keepStrings_map_str]
  cases ts with
  | nil => rfl
  | cons t ts2 =>
    have hj : goJoin " " (t :: ts2) ≠ "" := goJoin_ne_empty t ts2 (h t (by simp)).1
    simp only [decodeFlagsVal, hj, if_false]
    exact goFields_goJoin (t :: ts2) h

/-- Witness for C8 at the token list `["-H","-n"]`. -/
theorem C8_flags_dual_decode_witness :
    decodeFlagsVal (some (.str (goJoin " " ["-H", "-n"]))) =
      decodeFlagsVal (some (.arr (["-H", "-n"].map .str))) ∧
    decodePattern (.obj [("flags", .str "-H -n -r -i")]) =
      decodePattern (.obj [("flags", .arr [.str "-H", .str "-n", .str "-r", .str "-i"])]) ∧
    decodePattern (.obj [("flags", .arr [.str "-H", .num 7, .bool true, .str "-n"])]) =
      .ok ⟨["-H", "-n"], "", [], ""⟩ :=
  C8_flags_dual_decode ["-H", "-n"] (by decide)
